import Mathlib

/-!
Verification development for the `padre` bootstrap CLI
(`padre/cmd/bot.py`): the path resolver, the source loader, the
config/secrets merge pipeline of `main`, the SSH provisioner
`setup_ssh`, and the lifecycle controller `run_bot`.

The Python module is shallowly embedded: the filesystem and the
external subprocesses are abstracted as explicit function-valued
parameters (`Fs`, `SshWorld`, ...), effectful code returns explicit
effect lists or `Except`, and Python string idioms (`split(":", 1)`,
`strip`, truthiness of optional strings) are modelled by small helper
functions.  Logging (`LOG.info` / `print` to stderr) is diagnostic
output and is uniformly left out of the model.
-/

namespace Padre

/-- Split a character list on a separator character; the pieces appear
in order and separators are dropped.  Matches Python `s.split(sep)`
for a one-character separator.  (Implemented structurally so that the
kernel can evaluate it, unlike `String.splitOn`.) -/
def splitCharAux (sep : Char) : List Char → List Char → List (List Char)
  | [], acc => [acc.reverse]
  | c :: cs, acc =>
    if c == sep then acc.reverse :: splitCharAux sep cs []
    else splitCharAux sep cs (c :: acc)

/-- Python `s.split(sep)` for a one-character separator. -/
def splitChar (sep : Char) (s : String) : List String :=
  (splitCharAux sep s.data []).map String.mk

/-- Join a list of strings with a separator, Python `sep.join(parts)`. -/
def joinSep (sep : String) : List String → String
  | [] => ""
  | [x] => x
  | x :: xs => x ++ sep ++ joinSep sep xs

/-- Python `s.startswith(pre)`. -/
def pyStartsWith (s pre : String) : Bool := pre.data.isPrefixOf s.data

/-- Python `s.endswith(suf)`. -/
def pyEndsWith (s suf : String) : Bool := suf.data.reverse.isPrefixOf s.data.reverse

/-- Python `s.strip()`: drop whitespace from both ends. -/
def pyStrip (s : String) : String :=
  String.mk (((s.data.dropWhile Char.isWhitespace).reverse.dropWhile Char.isWhitespace).reverse)

/-- Python `s.lower()` for the ASCII strings the module compares. -/
def pyLower (s : String) : String := String.mk (s.data.map Char.toLower)

/-- Python `s.split(":", 1)`: split on the first `:` only.  When the
string has no `:`, the module binds the lookup key to `None`
(a `ValueError` is caught); this is modelled by `none`. -/
def pySplitColon1 (s : String) : String × Option String :=
  match splitChar ':' s with
  | [] => (s, none)
  | [p] => (p, none)
  | p :: rest => (p, some (joinSep ":" rest))

/-- Python truthiness of an optional string: `None` and the empty
string `""` are both falsy. -/
def truthyS : Option String → Bool
  | none => false
  | some s => s != ""

/-- Abstract view of the parts of the filesystem the module consults:
`os.path.exists`, `os.path.isfile`, `os.path.isdir` and `os.listdir`
(which returns the immediate entry names of a directory). -/
structure Fs where
  pathExists : String → Bool
  isfile : String → Bool
  isdir : String → Bool
  listdir : String → List String

/-- Python `os.path.join(p, s)` for the two-argument uses in the
module: an absolute second component wins; otherwise a single `/`
separator is inserted when needed. -/
def os_path_join (p s : String) : String :=
  if pyStartsWith s "/" then s
  else if p == "" then s
  else if pyEndsWith p "/" then p ++ s
  else p ++ "/" ++ s

/-- Extension part of Python `os.path.splitext(p)`: the suffix of the
basename starting at its last `.`, empty when the basename has no `.`
or only leading dots (so `.bashrc` has no extension). -/
def splitextExt (p : String) : String :=
  let base := (splitChar '/' p).getLastD ""
  let parts := splitChar '.' base
  match parts with
  | [] => ""
  | [_] => ""
  | _ :: _ :: _ =>
    let pre := joinSep "." parts.dropLast
    if pre.data.any (fun c => c != '.') then "." ++ parts.getLastD ""
    else ""

/-- Single quote character, used when rebuilding the module's
formatted messages. -/
def sq : String := String.singleton (Char.ofNat 39)

/-- `iter_identify_paths(paths)` (bot.py lines 243-260): split each raw
specifier on the first `:`, strip the path part, silently skip empty or
non-existing paths, classify existing paths as file `'f'` or directory
`'d'`, and raise `RuntimeError` when an existing path is neither.  The
generator is modelled as an `Except`: an error swallows the rest of the
pass, matching the consumer in `main` which dies on the exception. -/
def iter_identify_paths (fs : Fs) : List String → Except String (List (String × Option String × Char))
  | [] => .ok []
  | raw :: rest =>
    let pk := pySplitColon1 raw
    let path := pyStrip pk.1
    let key := pk.2
    if path == "" || !(fs.pathExists path) then iter_identify_paths fs rest
    else if fs.isfile path then
      match iter_identify_paths fs rest with
      | .ok l => .ok ((path, key, 'f') :: l)
      | .error e => .error e
    else if fs.isdir path then
      match iter_identify_paths fs rest with
      | .ok l => .ok ((path, key, 'd') :: l)
      | .error e => .error e
    else
      .error ("Unable to iterate paths from unknown path " ++ sq ++ path ++ sq ++
        " (it is not a directory or a file)")

/-- Default `ok_extensions` of `iter_paths`. -/
def ok_extensions : List String := [".yaml", ".yml"]

/-- The `path[:lookupKey]` string form under which `iter_paths` emits
and deduplicates a source: the lookup key is appended after a `:` only
when it is truthy (bot.py lines 267-268 and 281-282). -/
def withKey (key : Option String) (p : String) : String :=
  if truthyS key then p ++ ":" ++ key.getD "" else p

/-- One directory entry of the `os.listdir` loop of `iter_paths`
(bot.py lines 274-285): dotfiles are skipped, the entry is joined to
the directory path, and it qualifies when its lowercased extension is
in `ok_extensions` and it is a regular file. -/
def dirEntryQualifies (fs : Fs) (exts : List String) (path sub : String) : Bool :=
  !(pyStartsWith sub ".") &&
    (pyLower (splitextExt (os_path_join path sub)) ∈ exts) &&
    fs.isfile (os_path_join path sub)

/-- Inner `for sub_path in os.listdir(path)` loop of `iter_paths`,
threading the `seen_paths` set (modelled as a list used only through
membership) and returning the emitted sources together with the final
`seen_paths`. -/
def iter_paths_dir (fs : Fs) (exts : List String) (path : String) (key : Option String) :
    List String → List String → List String × List String
  | [], seen => ([], seen)
  | sub :: subs, seen =>
    if dirEntryQualifies fs exts path sub then
      let sp := withKey key (os_path_join path sub)
      if sp ∈ seen then iter_paths_dir fs exts path key subs seen
      else
        let r := iter_paths_dir fs exts path key subs (sp :: seen)
        (sp :: r.1, r.2)
    else iter_paths_dir fs exts path key subs seen

/-- Outer loop of `iter_paths` (bot.py lines 263-285) over the
identified `(path, env_lookup_key, kind)` triples, threading
`seen_paths`. -/
def iter_paths_go (fs : Fs) (exts : List String) :
    List (String × Option String × Char) → List String → List String × List String
  | [], seen => ([], seen)
  | (path, key, kind) :: rest, seen =>
    if kind == 'f' then
      let p := withKey key path
      if p ∈ seen then iter_paths_go fs exts rest seen
      else
        let r := iter_paths_go fs exts rest (p :: seen)
        (p :: r.1, r.2)
    else
      let d := iter_paths_dir fs exts path key (fs.listdir path) seen
      let r := iter_paths_go fs exts rest d.2
      (d.1 ++ r.1, r.2)

/-- `iter_paths(paths, ok_extensions=('.yaml', '.yml'))`: the resolved,
deduplicated sequence of `path[:lookupKey]` source identifiers. -/
def iter_paths (fs : Fs) (entries : List (String × Option String × Char))
    (exts : List String := ok_extensions) : List String :=
  (iter_paths_go fs exts entries []).1

/-- Modelled from the spec: generic first-seen deduplication
(`a SourceId already emitted ... is never emitted again, preserving
first-seen order`), threading the set of already seen strings.  Used
to compare `iter_paths` against the spec's description. -/
def firstDedupGo : List String → List String → List String × List String
  | [], seen => ([], seen)
  | x :: xs, seen =>
    if x ∈ seen then firstDedupGo xs seen
    else
      let r := firstDedupGo xs (x :: seen)
      (x :: r.1, r.2)

/-- First-seen deduplication of a list of strings. -/
def firstDedup (l : List String) : List String := (firstDedupGo l []).1

/-- The raw (pre-deduplication) candidate sources produced by the
directory branch of `iter_paths` for the listed entries. -/
def dirCands (fs : Fs) (exts : List String) (path : String) (key : Option String) :
    List String → List String
  | [] => []
  | sub :: subs =>
    if dirEntryQualifies fs exts path sub then
      withKey key (os_path_join path sub) :: dirCands fs exts path key subs
    else dirCands fs exts path key subs

/-- The raw (pre-deduplication) candidate sources of a whole
`iter_paths` pass, in emission order. -/
def cands (fs : Fs) (exts : List String) : List (String × Option String × Char) → List String
  | [] => []
  | (path, key, kind) :: rest =>
    (if kind == 'f' then [withKey key path]
     else dirCands fs exts path key (fs.listdir path)) ++ cands fs exts rest

/-- Concrete filesystem fixture: a directory `d` whose entries carry
upper- and mixed-case YAML extensions, a non-YAML file and a dotfile. -/
def fsUpper : Fs where
  pathExists := fun p => p ∈ ["d", "d/a.YAML", "d/b.Yml", "d/c.txt", "d/.h.yaml"]
  isfile := fun p => p ∈ ["d/a.YAML", "d/b.Yml", "d/c.txt", "d/.h.yaml"]
  isdir := fun p => p == "d"
  listdir := fun p => if p == "d" then ["a.YAML", "b.Yml", "c.txt", ".h.yaml"] else []

/-- Whether a result is an error, observer on the `Except`-modelled
generators. -/
def isError {ε α : Type} : Except ε α → Bool
  | .error _ => true
  | .ok _ => false

/-- Per-element classification of `iter_identify_paths`: `none` when
the element is skipped, `some (path, key, kind)` when it is emitted;
the fatal branch is also `none` here (it is described by `badSpec`). -/
def identifyOne (fs : Fs) (raw : String) : Option (String × Option String × Char) :=
  let pk := pySplitColon1 raw
  let path := pyStrip pk.1
  if path == "" || !(fs.pathExists path) then none
  else if fs.isfile path then some (path, pk.2, 'f')
  else if fs.isdir path then some (path, pk.2, 'd')
  else none

/-- A raw specifier whose (stripped) left part exists on the
filesystem but is neither a regular file nor a directory — the fatal
condition of `iter_identify_paths`. -/
def badSpec (fs : Fs) (raw : String) : Bool :=
  fs.pathExists (pyStrip (pySplitColon1 raw).1) &&
    !(fs.isfile (pyStrip (pySplitColon1 raw).1)) &&
    !(fs.isdir (pyStrip (pySplitColon1 raw).1))

/-! The source loader `load_yaml_or_secret_yaml` (bot.py lines
29-52). -/

/-- The two effectful branches of `load_yaml_or_secret_yaml`: either
run the external decoder command and parse its standard output as
JSON, or open the file at the given path and parse its contents as
YAML. -/
inductive LoadAction
  | decode (cmd : List String)
  | openYaml (path : String)
deriving DecidableEq

/-- Whether a load action invokes the external decoder. -/
def LoadAction.isDecode : LoadAction → Bool
  | .decode _ => true
  | .openYaml _ => false

/-- The decoder command built at bot.py lines 35-41:
`padre-decoder -f <path>` plus `-e <lookupKey>` when the key is
truthy. -/
def padre_decoder_cmd (path : String) (key : Option String) : List String :=
  ["padre-decoder", "-f", path] ++
    (if truthyS key then ["-e", key.getD ""] else [])

/-- Branch decision of `load_yaml_or_secret_yaml(path, force_secrets)`
(bot.py lines 29-52): re-split the identifier on the first `:`; when
the lookup key is truthy or secrecy is forced, run the decoder on the
path part, otherwise open the path part as a plain YAML file. -/
def load_action (path : String) (force_secrets : Bool) : LoadAction :=
  let pk := pySplitColon1 path
  if truthyS pk.2 || force_secrets then .decode (padre_decoder_cmd pk.1 pk.2)
  else .openYaml pk.1

/-- Decoded declarative data (`DecodedMapping` of the spec): scalars,
ordered sequences, and string-keyed mappings (association lists). -/
inductive Value
  | scalar (s : String)
  | seq (vs : List Value)
  | map (kvs : List (String × Value))

/-- Top-level keys of a decoded value (empty for non-mappings). -/
def topKeys : Value → List String
  | .map kvs => kvs.map Prod.fst
  | _ => []

/-- First binding of a key in an association list. -/
def lookupV : List (String × Value) → String → Option Value
  | [], _ => none
  | (k, v) :: rest, key => if k == key then some v else lookupV rest key

mutual
/-- Modelled from the spec: `utils.merge_dict` (padre/utils.py, which
is not under src/).  Deep merge with override: when both values are
mappings they are merged key by key recursively, otherwise the second
value replaces the first wholesale (Section 4.3 of the spec). -/
def merge_dict : Value → Value → Value
  | .map a, .map b =>
    .map (mergeLeft a b ++ b.filter (fun kv => (lookupV a kv.1).isNone))
  | _, b => b

/-- Keys of the accumulator, merged with the overriding mapping where
present. -/
def mergeLeft : List (String × Value) → List (String × Value) → List (String × Value)
  | [], _ => []
  | (k, va) :: rest, b =>
    (k, match lookupV b k with
        | some vb => merge_dict va vb
        | none => va) :: mergeLeft rest b
end

/-- External collaborators of the loader: the decoder subprocess
(its parsed-JSON standard output per command line) and direct YAML
file reads.  Tool failure aborts the process and is outside the
merge-pipeline claims. -/
structure LoadWorld where
  runDecoderJson : List String → Value
  readYaml : String → Value

/-- `load_yaml_or_secret_yaml` against an abstract world: perform the
decided action. -/
def load_yaml_or_secret_yaml (w : LoadWorld) (path : String) (force_secrets : Bool) : Value :=
  match load_action path force_secrets with
  | .decode cmd => w.runDecoderJson cmd
  | .openYaml p => w.readYaml p

/-- Configuration pass of `main` (bot.py lines 315-324): resolve the
`--config` specifiers, load each with `force_secrets=False`, and fold
with `merge_dict` from the empty mapping (`munchify` only changes the
attribute-access wrapper and is omitted). -/
def main_config (fs : Fs) (w : LoadWorld) (configArgs : List String) : Except String Value :=
  match iter_identify_paths fs configArgs with
  | .error e => .error e
  | .ok entries =>
    .ok ((iter_paths fs entries).foldl
      (fun acc p => merge_dict acc (load_yaml_or_secret_yaml w p false)) (.map []))

/-- Secrets pass of `main` (bot.py lines 329-338): resolve the
`--secrets` specifiers, load each with `force_secrets=True`, and fold
with `merge_dict` from the empty mapping. -/
def main_secrets (fs : Fs) (w : LoadWorld) (secretsArgs : List String) : Except String Value :=
  match iter_identify_paths fs secretsArgs with
  | .error e => .error e
  | .ok entries =>
    .ok ((iter_paths fs entries).foldl
      (fun acc p => merge_dict acc (load_yaml_or_secret_yaml w p true)) (.map []))

/-- The two passes of `main` in program order: config first, then
secrets. -/
def main_load_all (fs : Fs) (w : LoadWorld) (configArgs secretsArgs : List String) :
    Except String (Value × Value) :=
  match main_config fs w configArgs with
  | .error e => .error e
  | .ok c =>
    match main_secrets fs w secretsArgs with
    | .error e => .error e
    | .ok s => .ok (c, s)

/-- The concrete source identifiers a pass resolves (empty when
identification raises). -/
def resolvedPaths (fs : Fs) (args : List String) : List String :=
  match iter_identify_paths fs args with
  | .ok entries => iter_paths fs entries
  | .error _ => []

/-- The loader invocations of the secrets pass: one action per
resolved path, each with `force_secrets=True` (bot.py line 336). -/
def secretsLoadActions (fs : Fs) (args : List String) : List LoadAction :=
  (resolvedPaths fs args).map (fun p => load_action p true)

/-- The loader invocations of the config pass: one action per resolved
path, each with `force_secrets=False` (bot.py line 322). -/
def configLoadActions (fs : Fs) (args : List String) : List LoadAction :=
  (resolvedPaths fs args).map (fun p => load_action p false)

/-! The lifecycle controller `run_bot` (bot.py lines 216-240). -/

/-- Modelled from the spec: the lifecycle intent values
(`padre.event.Event` is not under src/; the spec's `LifecycleIntent`
enumeration, with the code's member names `RESTART` and `DIE`).  The
bot's `dead` slot holds at most one intent, most recent signal
wins. -/
inductive Event
  | RESTART
  | DIE
deriving DecidableEq

/-- Handler installed for the reload signal (bot.py lines 219-221):
set the intent slot to RESTART, whatever it held. -/
def do_restart (_slot : Option Event) : Option Event := some .RESTART

/-- Handler installed for the terminate signals (bot.py lines
223-225): set the intent slot to DIE, whatever it held. -/
def do_death (_slot : Option Event) : Option Event := some .DIE

/-- The OS signals the controller wires. -/
inductive Sig
  | sigterm
  | sigint
  | sighup
deriving DecidableEq

/-- Signal wiring of `run_bot` (bot.py lines 227-232): SIGTERM and
SIGINT get `do_death`; SIGHUP gets `do_restart` only where the host
platform has SIGHUP; nothing else is installed. -/
def run_bot_handlers (hasSighup : Bool) : Sig → Option (Option Event → Option Event)
  | .sigterm => some do_death
  | .sigint => some do_death
  | .sighup => if hasSighup then some do_restart else none

/-- The `while True` loop of `run_bot` (bot.py lines 235-240), with
`runs i` the boolean returned by the `(i+1)`-th call of
`main_bot.run()`.  `fuel` bounds how many iterations are observed:
`some n` means the loop exited after exactly `n` calls, `none` that it
was still looping when the fuel ran out. -/
def run_bot_loop (runs : Nat → Bool) : Nat → Nat → Option Nat
  | 0, _ => none
  | fuel + 1, k => if runs k then run_bot_loop runs fuel (k + 1) else some (k + 1)

/-! The SSH provisioner `setup_ssh` (bot.py lines 74-160). -/

/-- Filesystem side effects of the provisioner, in program order. -/
inductive FsEffect
  | makedirs (path : String)
  | write (path : String) (contents : String)
  | chmod (path : String) (mode : Nat)
deriving DecidableEq

/-- The configuration fields `setup_ssh` reads; absent attributes are
`none` (`AttributeError` probing), `known_hosts` defaults to the empty
tuple. -/
structure SshConfig where
  create_at : Option String
  ssh_config : Option String
  private_key : Option String
  public_key : Option String
  known_hosts : List String
  env_fetcher_func : Option String
  env_dir : Option String

/-- External collaborators of `setup_ssh`: availability of the
`render` executable, the imported environment-fetcher plugin (its
(name, topology-file) pairs given the configured env_dir), and the
`render` subprocess outcome per topology file. -/
structure SshWorld where
  render_bin : Option String
  fetcher_envs : Option String → List (String × String)
  render_ok : String → Bool
  render_out : String → String

/-- `iter_lines_clean` (bot.py lines 75-80): drop blank lines and
`#`-prefixed lines.  (`str.splitlines` is modelled as splitting on
newline; the dropped pieces differ only in blank lines, which are
filtered anyway.) -/
def iter_lines_clean (blob : String) : List String :=
  (splitChar '\n' blob).filter (fun line => !(line == "" || pyStartsWith line "#"))

/-- The autogenerated-file warning header written first into
`known_hosts` (bot.py lines 157-158; the two adjacent Python string
literals concatenate). -/
def known_hosts_header : String :=
  "# WARNING: DO NOT EDIT THIS FILE (IT WAS AUTOGENERATED ON BOT BOOTSTRAP!!!)\n"

/-- The known-hosts lines contributed by the environment-fetcher
plugin (bot.py lines 146-153): per environment, run `render`, fail
fatally on non-zero exit, otherwise append a header comment and the
cleaned output. -/
def collect_env_lines (w : SshWorld) : List (String × String) → Except String (List String)
  | [] => .ok []
  | (env_name, fn) :: rest =>
    if w.render_ok fn then
      match collect_env_lines w rest with
      | .ok ls =>
        .ok ((("# Environment " ++ sq ++ env_name ++ sq) :: iter_lines_clean (w.render_out fn)) ++ ls)
      | .error e => .error e
    else .error "ProcessExecutionError: render exited non-zero"

/-- One optional write-then-chmod block of `setup_ssh` (the pattern of
bot.py lines 99-103, 108-112 and 117-121): when the configured
contents are truthy, write the file and set its mode. -/
def write_mode_block (path : String) (contents : Option String) (mode : Nat) : List FsEffect :=
  if truthyS contents then [.write path (contents.getD ""), .chmod path mode] else []

/-- Effects of the `os.makedirs` call (performed only when the target
is absent; an existing directory is tolerated) and the three optional
key-material blocks of `setup_ssh` (bot.py lines 87-121), in program
order. -/
def setup_ssh_files (fs : Fs) (cfg : SshConfig) (ca : String) : List FsEffect :=
  (if fs.pathExists ca then [] else [FsEffect.makedirs ca]) ++
  write_mode_block (os_path_join ca "config") cfg.ssh_config 0o600 ++
  write_mode_block (os_path_join ca "id_rsa") cfg.private_key 0o600 ++
  write_mode_block (os_path_join ca "id_rsa.pub") cfg.public_key 0o600

/-- `setup_ssh(config, secrets)` (bot.py lines 74-160) against an
abstract filesystem and world: returns the effects performed in order
and, when the function raises, the exception that escaped (effects
before the raise are kept).  The `os.makedirs` call raises only when
the target exists and is not a directory.  The known-hosts host loop
(lines 127-138) calls the module `six.moves.urllib.parse` as a
function at line 131, which raises `TypeError` on the first iteration
— the keyscan code below it is unreachable, so any non-empty
`config.ssh.known_hosts` aborts there, after the key files were
written but before any known-hosts line is collected. -/
def setup_ssh (fs : Fs) (w : SshWorld) (cfg : SshConfig) : List FsEffect × Option String :=
  if !(truthyS cfg.create_at) then ([], none)
  else if fs.pathExists (cfg.create_at.getD "") && !(fs.isdir (cfg.create_at.getD "")) then
    ([], some "OSError: EEXIST and target is not a directory")
  else
    match cfg.known_hosts with
    | _ :: _ =>
      (setup_ssh_files fs cfg (cfg.create_at.getD ""),
        some "TypeError: module object is not callable")
    | [] =>
      match (if truthyS w.render_bin && cfg.env_fetcher_func.isSome then
              collect_env_lines w (w.fetcher_envs cfg.env_dir)
             else .ok []) with
      | .error e => (setup_ssh_files fs cfg (cfg.create_at.getD ""), some e)
      | .ok lines =>
        if lines.isEmpty then (setup_ssh_files fs cfg (cfg.create_at.getD ""), none)
        else
          (setup_ssh_files fs cfg (cfg.create_at.getD "") ++
            [FsEffect.write (os_path_join (cfg.create_at.getD "") "known_hosts")
                (known_hosts_header ++ joinSep "\n" lines),
              FsEffect.chmod (os_path_join (cfg.create_at.getD "") "known_hosts") 0o644],
            none)

/-- Every write in an effect list is immediately followed by a chmod
of the same path, with mode 0644 when the path is the known-hosts
path and 0600 otherwise. -/
inductive WritesChmodPaired (kh : String) : List FsEffect → Prop
  | nil : WritesChmodPaired kh []
  | makedirs (p : String) (rest : List FsEffect) :
      WritesChmodPaired kh rest → WritesChmodPaired kh (FsEffect.makedirs p :: rest)
  | chmod (p : String) (m : Nat) (rest : List FsEffect) :
      WritesChmodPaired kh rest → WritesChmodPaired kh (FsEffect.chmod p m :: rest)
  | write (p c : String) (m : Nat) (rest : List FsEffect)
      (hm : (p = kh ∧ m = 0o644) ∨ (p ≠ kh ∧ m = 0o600)) :
      WritesChmodPaired kh rest →
      WritesChmodPaired kh (FsEffect.write p c :: FsEffect.chmod p m :: rest)

/-- The paths written by an effect list, in order. -/
def writePaths : List FsEffect → List String
  | [] => []
  | FsEffect.write p _ :: rest => p :: writePaths rest
  | _ :: rest => writePaths rest

/-! Concrete fixtures for witnesses and counterexamples. -/

/-- A filesystem on which nothing exists. -/
def fsNone : Fs where
  pathExists := fun _ => false
  isfile := fun _ => false
  isdir := fun _ => false
  listdir := fun _ => []

/-- A filesystem with a single path `e` that exists but is neither a
regular file nor a directory (e.g. a socket). -/
def fsOddity : Fs where
  pathExists := fun p => p == "e"
  isfile := fun _ => false
  isdir := fun _ => false
  listdir := fun _ => []

/-- A load world decoding and parsing everything to the empty
mapping. -/
def loadWorldEmpty : LoadWorld where
  runDecoderJson := fun _ => Value.map []
  readYaml := fun _ => Value.map []

/-- An SSH world with no `render` executable and no environments. -/
def sshWorldEmpty : SshWorld where
  render_bin := none
  fetcher_envs := fun _ => []
  render_ok := fun _ => true
  render_out := fun _ => ""

/-- SSH configuration with one configured known-hosts host and nothing
else. -/
def cfgHostBug : SshConfig where
  create_at := some "/sshdir"
  ssh_config := none
  private_key := none
  public_key := none
  known_hosts := ["example.com"]
  env_fetcher_func := none
  env_dir := none

/-- SSH configuration supplying client config and both key files, no
hosts, no plugin. -/
def cfgFull : SshConfig where
  create_at := some "/sshdir"
  ssh_config := some "Host *\n"
  private_key := some "PRIV"
  public_key := some "PUB"
  known_hosts := []
  env_fetcher_func := none
  env_dir := none

/-! Lemmas about `firstDedupGo` and the correspondence between
`iter_paths` and first-seen deduplication of the candidate list. -/

theorem firstDedupGo_append (a b seen) :
    firstDedupGo (a ++ b) seen =
      ((firstDedupGo a seen).1 ++ (firstDedupGo b (firstDedupGo a seen).2).1,
        (firstDedupGo b (firstDedupGo a seen).2).2) := by
  induction a generalizing seen with
  | nil => simp [firstDedupGo]
  | cons x xs ih => by_cases h : x ∈ seen <;> simp [firstDedupGo, h, ih]

theorem firstDedupGo_fst_mem (l : List String) (seen : List String) (x : String) :
    x ∈ (firstDedupGo l seen).1 ↔ x ∈ l ∧ x ∉ seen := by
  induction l generalizing seen with
  | nil => simp [firstDedupGo]
  | cons y ys ih =>
    by_cases h : y ∈ seen
    · rw [firstDedupGo, if_pos h, ih]
      simp only [List.mem_cons]
      constructor
      · exact fun hx => ⟨Or.inr hx.1, hx.2⟩
      · rintro ⟨rfl | hy, hns⟩
        · exact absurd h hns
        · exact ⟨hy, hns⟩
    · rw [firstDedupGo, if_neg h]
      simp only [List.mem_cons, ih, List.mem_cons]
      constructor
      · rintro (rfl | ⟨hy, hns⟩)
        · exact ⟨Or.inl rfl, h⟩
        · exact ⟨Or.inr hy, fun hs => hns (Or.inr hs)⟩
      · rintro ⟨rfl | hy, hns⟩
        · exact Or.inl rfl
        · by_cases hxy : x = y
          · exact Or.inl hxy
          · exact Or.inr ⟨hy, fun hc => by
              rcases hc with hc | hc
              · exact hxy hc
              · exact hns hc⟩

theorem firstDedupGo_snd_mem (l : List String) (seen : List String) (x : String) :
    x ∈ (firstDedupGo l seen).2 ↔ x ∈ (firstDedupGo l seen).1 ∨ x ∈ seen := by
  induction l generalizing seen with
  | nil => simp [firstDedupGo]
  | cons y ys ih =>
    by_cases h : y ∈ seen
    · simp [firstDedupGo, h, ih]
    · simp only [firstDedupGo, if_neg h, ih, List.mem_cons]
      constructor
      · rintro (hf | rfl | hs)
        · exact Or.inl (Or.inr hf)
        · exact Or.inl (Or.inl rfl)
        · exact Or.inr hs
      · rintro ((rfl | hf) | hs)
        · exact Or.inr (Or.inl rfl)
        · exact Or.inl hf
        · exact Or.inr (Or.inr hs)

theorem firstDedupGo_fst_nodup (l : List String) (seen : List String) :
    ((firstDedupGo l seen).1).Nodup := by
  induction l generalizing seen with
  | nil => simp [firstDedupGo]
  | cons y ys ih =>
    by_cases h : y ∈ seen
    · simp [firstDedupGo, h, ih]
    · simp only [firstDedupGo, if_neg h, List.nodup_cons]
      refine ⟨fun hmem => ?_, ih _⟩
      exact ((firstDedupGo_fst_mem ys (y :: seen) y).1 hmem).2 (List.mem_cons_self _ _)

theorem firstDedupGo_sub_snd (l : List String) (seen : List String) :
    ∀ x ∈ l, x ∈ (firstDedupGo l seen).2 := by
  intro x hx
  rw [firstDedupGo_snd_mem]
  by_cases hs : x ∈ seen
  · exact Or.inr hs
  · exact Or.inl ((firstDedupGo_fst_mem l seen x).2 ⟨hx, hs⟩)

theorem firstDedupGo_fst_nil (l : List String) (seen : List String)
    (h : ∀ x ∈ l, x ∈ seen) : (firstDedupGo l seen).1 = [] := by
  rw [List.eq_nil_iff_forall_not_mem]
  intro x hx
  exact ((firstDedupGo_fst_mem l seen x).1 hx).2 (h x ((firstDedupGo_fst_mem l seen x).1 hx).1)

theorem iter_paths_dir_eq (fs : Fs) (exts : List String) (path : String)
    (key : Option String) (subs : List String) (seen : List String) :
    iter_paths_dir fs exts path key subs seen =
      firstDedupGo (dirCands fs exts path key subs) seen := by
  induction subs generalizing seen with
  | nil => simp [iter_paths_dir, dirCands, firstDedupGo]
  | cons sub subs ih =>
    by_cases hq : dirEntryQualifies fs exts path sub
    · by_cases hs : withKey key (os_path_join path sub) ∈ seen <;>
        simp [iter_paths_dir, dirCands, firstDedupGo, hq, hs, ih]
    · simp [iter_paths_dir, dirCands, hq, ih]

theorem iter_paths_go_eq (fs : Fs) (exts : List String)
    (l : List (String × Option String × Char)) (seen : List String) :
    iter_paths_go fs exts l seen = firstDedupGo (cands fs exts l) seen := by
  induction l generalizing seen with
  | nil => simp [iter_paths_go, cands, firstDedupGo]
  | cons e rest ih =>
    obtain ⟨path, key, kind⟩ := e
    by_cases hk : kind == 'f'
    · by_cases hs : withKey key path ∈ seen <;>
        simp [iter_paths_go, cands, firstDedupGo, hk, hs, ih, firstDedupGo_append]
    · simp [iter_paths_go, cands, hk, ih, firstDedupGo_append, iter_paths_dir_eq]

theorem cands_append (fs : Fs) (exts : List String)
    (a b : List (String × Option String × Char)) :
    cands fs exts (a ++ b) = cands fs exts a ++ cands fs exts b := by
  induction a with
  | nil => simp [cands]
  | cons e rest ih =>
    obtain ⟨path, key, kind⟩ := e
    simp [cands, ih]

theorem dirCands_mem (fs : Fs) (exts : List String) (path : String)
    (key : Option String) (subs : List String) (x : String) :
    x ∈ dirCands fs exts path key subs ↔
      ∃ sub ∈ subs, dirEntryQualifies fs exts path sub ∧
        x = withKey key (os_path_join path sub) := by
  induction subs with
  | nil => simp [dirCands]
  | cons sub subs ih =>
    by_cases hq : dirEntryQualifies fs exts path sub
    · simp only [dirCands, if_pos hq, List.mem_cons, ih]
      constructor
      · rintro (rfl | ⟨s, hsub, hqs, rfl⟩)
        · exact ⟨sub, Or.inl rfl, hq, rfl⟩
        · exact ⟨s, Or.inr hsub, hqs, rfl⟩
      · rintro ⟨s, hs | hsub, hqs, rfl⟩
        · exact Or.inl (by rw [hs])
        · exact Or.inr ⟨s, hsub, hqs, rfl⟩
    · simp only [dirCands, if_neg hq, ih, List.mem_cons]
      constructor
      · rintro ⟨s, hsub, hqs, rfl⟩
        exact ⟨s, Or.inr hsub, hqs, rfl⟩
      · rintro ⟨s, hs | hsub, hqs, rfl⟩
        · exact absurd (hs ▸ hqs) hq
        · exact ⟨s, hsub, hqs, rfl⟩

/-- Claim C2: for every ordered sequence of identified path entries,
`iter_paths` emits each source identifier (in its `path[:lookupKey]`
string form) at most once (the output has no duplicates), its output
is exactly the first-seen-order deduplication of the raw candidate
sequence, and resolving the same entry list twice in a row emits
exactly what resolving it once emits (so a directory given through two
specifiers contributes each qualifying file exactly once). -/
theorem claimC2 :
    (∀ (fs : Fs) (l : List (String × Option String × Char)), (iter_paths fs l).Nodup) ∧
    (∀ (fs : Fs) (l : List (String × Option String × Char)),
        iter_paths fs l = firstDedup (cands fs ok_extensions l)) ∧
    (∀ (fs : Fs) (l : List (String × Option String × Char)),
        iter_paths fs (l ++ l) = iter_paths fs l) := by
  refine ⟨fun fs l => ?_, fun fs l => ?_, fun fs l => ?_⟩
  · rw [iter_paths, iter_paths_go_eq]
    exact firstDedupGo_fst_nodup _ _
  · rw [iter_paths, iter_paths_go_eq, firstDedup]
  · rw [iter_paths, iter_paths, iter_paths_go_eq, iter_paths_go_eq, cands_append,
      firstDedupGo_append]
    simp [firstDedupGo_fst_nil _ _ (firstDedupGo_sub_snd (cands fs ok_extensions l) [])]

theorem mem_iter_paths_dir (fs : Fs) (path : String) (key : Option String) (x : String) :
    x ∈ iter_paths fs [(path, key, 'd')] ↔
      ∃ sub ∈ fs.listdir path,
        !(pyStartsWith sub ".") ∧
        pyLower (splitextExt (os_path_join path sub)) ∈ ok_extensions ∧
        fs.isfile (os_path_join path sub) ∧
        x = withKey key (os_path_join path sub) := by
  rw [iter_paths, iter_paths_go_eq]
  simp only [cands, show (('d' == 'f') = true) = False by simp, if_false,
    List.append_nil, firstDedupGo_fst_mem, List.not_mem_nil,
    not_false_iff, and_true, dirCands_mem]
  constructor
  · rintro ⟨s, hsub, hq, rfl⟩
    have hq3 := hq
    simp only [dirEntryQualifies, Bool.and_eq_true] at hq3
    exact ⟨s, hsub, hq3.1.1, by simpa using hq3.1.2, hq3.2, rfl⟩
  · rintro ⟨s, hsub, h1, h2, h3, rfl⟩
    refine ⟨s, hsub, ?_, rfl⟩
    simp [dirEntryQualifies, h1, h2, h3]

/-- Claim C7: a source identifier is emitted for a directory entry
exactly when it comes from an immediate `listdir` entry that is not a
dotfile, whose lowercased extension is `.yaml` or `.yml`, and which is
a regular file; the emitted identifier is the joined path carrying the
directory's lookup key. -/
theorem claimC7 (fs : Fs) (path : String) (key : Option String) (x : String) :
    x ∈ iter_paths fs [(path, key, 'd')] ↔
      ∃ sub ∈ fs.listdir path,
        !(pyStartsWith sub ".") ∧
        pyLower (splitextExt (os_path_join path sub)) ∈ ok_extensions ∧
        fs.isfile (os_path_join path sub) ∧
        x = withKey key (os_path_join path sub) :=
  mem_iter_paths_dir fs path key x

/-- Claim C10: directory-expansion extension matching is
case-insensitive.  Any non-dotfile regular-file entry whose lowercased
extension is `.yaml` or `.yml` is emitted, and on a concrete directory
holding `a.YAML`, `b.Yml`, `c.txt` and `.h.yaml` exactly the first two
are emitted. -/
theorem claimC10 :
    (∀ (fs : Fs) (path : String) (key : Option String) (sub : String),
        sub ∈ fs.listdir path →
        !(pyStartsWith sub ".") →
        pyLower (splitextExt (os_path_join path sub)) ∈ ok_extensions →
        fs.isfile (os_path_join path sub) →
        withKey key (os_path_join path sub) ∈ iter_paths fs [(path, key, 'd')]) ∧
    iter_paths fsUpper [("d", none, 'd')] = ["d/a.YAML", "d/b.Yml"] := by
  constructor
  · intro fs path key sub hsub h1 h2 h3
    exact (mem_iter_paths_dir fs path key _).2 ⟨sub, hsub, h1, h2, h3, rfl⟩
  · decide

/-- Witness for the universally quantified part of `claimC10`,
instantiated at the concrete fixture `fsUpper` and entry `a.YAML`. -/
theorem claimC10_witness :
    "d/a.YAML" ∈ iter_paths fsUpper [("d", none, 'd')] :=
  claimC10.1 fsUpper "d" none "a.YAML" (by decide) (by decide) (by decide) (by decide)

/-- Claim C6: `iter_identify_paths` splits each raw specifier on the
first `:`; when no specifier is bad (existing but neither file nor
directory) the pass succeeds and maps each specifier through
`identifyOne`; when some specifier is bad the pass raises; a specifier
whose (stripped) left part does not exist is skipped silently
(contributes `none`), an existing regular file is classified `'f'`,
and an existing directory (that is not a regular file) is classified
`'d'`.  The hypothesis `pathExists "" = false` records that on a real
filesystem (as in Python) the empty path never exists. -/
theorem claimC6 (fs : Fs) (specs : List String) (h0 : fs.pathExists "" = false) :
    ((∀ raw ∈ specs, badSpec fs raw = false) →
        iter_identify_paths fs specs = .ok (specs.filterMap (identifyOne fs))) ∧
    ((∃ raw ∈ specs, badSpec fs raw = true) →
        isError (iter_identify_paths fs specs) = true) ∧
    (∀ raw : String, fs.pathExists (pyStrip (pySplitColon1 raw).1) = false →
        identifyOne fs raw = none) ∧
    (∀ raw : String, fs.pathExists (pyStrip (pySplitColon1 raw).1) = true →
        fs.isfile (pyStrip (pySplitColon1 raw).1) = true →
        identifyOne fs raw = some (pyStrip (pySplitColon1 raw).1, (pySplitColon1 raw).2, 'f')) ∧
    (∀ raw : String, fs.pathExists (pyStrip (pySplitColon1 raw).1) = true →
        fs.isfile (pyStrip (pySplitColon1 raw).1) = false →
        fs.isdir (pyStrip (pySplitColon1 raw).1) = true →
        identifyOne fs raw = some (pyStrip (pySplitColon1 raw).1, (pySplitColon1 raw).2, 'd')) := by
  have hpne : ∀ raw : String, fs.pathExists (pyStrip (pySplitColon1 raw).1) = true →
      (pyStrip (pySplitColon1 raw).1 == "") = false := by
    intro raw hex
    cases hc : (pyStrip (pySplitColon1 raw).1 == "") with
    | false => rfl
    | true =>
      rw [beq_iff_eq] at hc
      rw [hc, h0] at hex
      cases hex
  refine ⟨?_, ?_, ?_, ?_, ?_⟩
  · induction specs with
    | nil => intro _; rfl
    | cons raw rest ih =>
      intro h
      have hbad := h raw (List.mem_cons_self _ _)
      have hrest := ih (fun r hr => h r (List.mem_cons_of_mem _ hr))
      rw [List.filterMap_cons]
      by_cases hskip : (pyStrip (pySplitColon1 raw).1 == "" ||
          !fs.pathExists (pyStrip (pySplitColon1 raw).1)) = true
      · simp [iter_identify_paths, identifyOne, hskip, hrest]
      · have hex : fs.pathExists (pyStrip (pySplitColon1 raw).1) = true := by
          cases hx : fs.pathExists (pyStrip (pySplitColon1 raw).1) with
          | true => rfl
          | false => rw [Bool.or_eq_true, not_or] at hskip; simp [hx] at hskip
        by_cases hf : fs.isfile (pyStrip (pySplitColon1 raw).1) = true
        · simp [iter_identify_paths, identifyOne, hskip, hf, hrest]
        · have hd : fs.isdir (pyStrip (pySplitColon1 raw).1) = true := by
            rw [badSpec] at hbad
            cases hdd : fs.isdir (pyStrip (pySplitColon1 raw).1) with
            | true => rfl
            | false =>
              rw [Bool.not_eq_true] at hf
              simp [hex, hf, hdd] at hbad
          simp [iter_identify_paths, identifyOne, hskip, hf, hd, hrest]
  · induction specs with
    | nil => rintro ⟨raw, hraw, -⟩; cases hraw
    | cons raw rest ih =>
      rintro ⟨r, hr, hbad⟩
      rcases List.mem_cons.1 hr with rfl | hr2
      · rw [badSpec, Bool.and_eq_true, Bool.and_eq_true] at hbad
        obtain ⟨⟨hex, hnf⟩, hnd⟩ := hbad
        have hskip : (pyStrip (pySplitColon1 r).1 == "" ||
            !fs.pathExists (pyStrip (pySplitColon1 r).1)) = false := by
          rw [hpne r hex, hex]; rfl
        have hnf2 : fs.isfile (pyStrip (pySplitColon1 r).1) = false := by
          cases hx : fs.isfile (pyStrip (pySplitColon1 r).1) with
          | false => rfl
          | true => rw [hx] at hnf; cases hnf
        have hnd2 : fs.isdir (pyStrip (pySplitColon1 r).1) = false := by
          cases hx : fs.isdir (pyStrip (pySplitColon1 r).1) with
          | false => rfl
          | true => rw [hx] at hnd; cases hnd
        simp [iter_identify_paths, hskip, hnf2, hnd2, isError]
      · have hrec := ih ⟨r, hr2, hbad⟩
        by_cases hskip : (pyStrip (pySplitColon1 raw).1 == "" ||
            !fs.pathExists (pyStrip (pySplitColon1 raw).1)) = true
        · simpa [iter_identify_paths, hskip] using hrec
        · by_cases hf : fs.isfile (pyStrip (pySplitColon1 raw).1) = true
          · simp only [iter_identify_paths]
            cases hit : iter_identify_paths fs rest with
            | ok l => rw [hit] at hrec; cases hrec
            | error e => simp [hskip, hf, hit, isError]
          · by_cases hd : fs.isdir (pyStrip (pySplitColon1 raw).1) = true
            · simp only [iter_identify_paths]
              cases hit : iter_identify_paths fs rest with
              | ok l => rw [hit] at hrec; cases hrec
              | error e => simp [hskip, hf, hd, hit, isError]
            · simp [iter_identify_paths, hskip, hf, hd, isError]
  · intro raw hnex
    simp only [identifyOne, hnex, Bool.not_false, Bool.or_true, if_true]
  · intro raw hex hf
    simp [identifyOne, hpne raw hex, hex, hf]
  · intro raw hex hf hd
    simp [identifyOne, hpne raw hex, hex, hf, hd]

/-- Witness for `claimC6`: on the fixture filesystems, a good
specifier list identifies successfully to its classified form, and a
path that exists as neither file nor directory raises. -/
theorem claimC6_witness :
    iter_identify_paths fsUpper ["d", "missing", "d/c.txt:k"] =
      .ok ((["d", "missing", "d/c.txt:k"]).filterMap (identifyOne fsUpper)) ∧
    isError (iter_identify_paths fsOddity ["e"]) = true :=
  ⟨(claimC6 fsUpper ["d", "missing", "d/c.txt:k"] (by decide)).1 (by decide),
   (claimC6 fsOddity ["e"] (by decide)).2.1 ⟨"e", by decide, by decide⟩⟩

/-- Claim C4: `load_yaml_or_secret_yaml` chooses the decoder branch
exactly when the lookup key (found by splitting the identifier on the
first `:`) is truthy or secrecy is forced; the decoder command is
`padre-decoder -f <path>` plus `-e <lookupKey>` exactly when the key
is truthy; otherwise the path is opened directly as plain YAML, with
no secret-specific handling. -/
theorem claimC4 (path : String) (force_secrets : Bool) :
    ((load_action path force_secrets).isDecode =
      (truthyS (pySplitColon1 path).2 || force_secrets)) ∧
    (∀ cmd, load_action path force_secrets = .decode cmd →
        cmd = ["padre-decoder", "-f", (pySplitColon1 path).1] ++
          (if truthyS (pySplitColon1 path).2 then
            ["-e", (pySplitColon1 path).2.getD ""] else [])) ∧
    ((truthyS (pySplitColon1 path).2 || force_secrets) = false →
        load_action path force_secrets = .openYaml (pySplitColon1 path).1) := by
  refine ⟨?_, ?_, ?_⟩
  · by_cases h : (truthyS (pySplitColon1 path).2 || force_secrets) = true
    · simp only [load_action, h, if_true, LoadAction.isDecode]
    · rw [Bool.not_eq_true] at h
      simp only [load_action, h, Bool.false_eq_true, if_false, LoadAction.isDecode]
  · intro cmd hcmd
    by_cases h : (truthyS (pySplitColon1 path).2 || force_secrets) = true
    · rw [load_action] at hcmd
      simp only [h, if_true] at hcmd
      injection hcmd with hcmd
      rw [← hcmd, padre_decoder_cmd]
    · rw [Bool.not_eq_true] at h
      rw [load_action] at hcmd
      simp only [h, Bool.false_eq_true, if_false] at hcmd
      cases hcmd
  · intro h
    simp only [load_action, h, Bool.false_eq_true, if_false]

/-- Witness for `claimC4`: the identifier `a:b` without forced secrecy
decodes with `padre-decoder -f a -e b`, and the identifier `c` without
forced secrecy is opened as plain YAML. -/
theorem claimC4_witness :
    ["padre-decoder", "-f", "a", "-e", "b"] =
      ["padre-decoder", "-f", (pySplitColon1 "a:b").1] ++
        (if truthyS (pySplitColon1 "a:b").2 then
          ["-e", (pySplitColon1 "a:b").2.getD ""] else []) ∧
    load_action "c" false = .openYaml (pySplitColon1 "c").1 :=
  ⟨(claimC4 "a:b" false).2.1 ["padre-decoder", "-f", "a", "-e", "b"] (by decide),
   (claimC4 "c" false).2.2 (by decide)⟩

/-- Claim C9: every secrets source is loaded with secrecy forced — the
secrets pass of `main` produces only decoder invocations, and forcing
always decodes whatever the identifier; the config pass decodes
exactly the identifiers whose lookup key is truthy, parsing the rest
as plain YAML. -/
theorem claimC9 :
    (∀ (fs : Fs) (args : List String) (a : LoadAction),
        a ∈ secretsLoadActions fs args → a.isDecode = true) ∧
    (∀ path : String, (load_action path true).isDecode = true) ∧
    (∀ path : String,
        (load_action path false).isDecode = truthyS (pySplitColon1 path).2) := by
  have htrue : ∀ path : String, (load_action path true).isDecode = true := by
    intro path
    simp only [load_action, Bool.or_true, if_true, LoadAction.isDecode]
  refine ⟨?_, htrue, ?_⟩
  · intro fs args a ha
    obtain ⟨p, -, rfl⟩ := List.mem_map.1 ha
    exact htrue p
  · intro path
    by_cases h : truthyS (pySplitColon1 path).2 = true
    · simp only [load_action, h, Bool.true_or, if_true, LoadAction.isDecode]
    · rw [Bool.not_eq_true] at h
      simp only [load_action, h, Bool.or_self, Bool.false_eq_true, if_false,
        LoadAction.isDecode]

/-- Witness for `claimC9`: the single resolved secrets source
`d/c.txt` of the fixture filesystem is loaded through the decoder. -/
theorem claimC9_witness :
    (LoadAction.decode ["padre-decoder", "-f", "d/c.txt"]).isDecode = true :=
  claimC9.1 fsUpper ["d/c.txt"] (LoadAction.decode ["padre-decoder", "-f", "d/c.txt"])
    (by decide)

/-! Lemmas about `merge_dict` and the two accumulation passes of
`main`. -/

theorem mergeLeft_keys (a b : List (String × Value)) :
    (mergeLeft a b).map Prod.fst = a.map Prod.fst := by
  induction a with
  | nil => rfl
  | cons kv rest ih =>
    obtain ⟨k, v⟩ := kv
    simp only [mergeLeft, List.map_cons, ih]

theorem topKeys_merge (a b : Value) (k : String) (h : k ∈ topKeys (merge_dict a b)) :
    k ∈ topKeys a ∨ k ∈ topKeys b := by
  cases a with
  | map ka =>
    cases b with
    | map kb =>
      simp only [merge_dict, topKeys, List.map_append, List.mem_append, mergeLeft_keys] at h
      rcases h with h | h
      · exact Or.inl (by simpa [topKeys] using h)
      · right
        simp only [topKeys]
        obtain ⟨kv, hkv, rfl⟩ := List.mem_map.1 h
        exact List.mem_map_of_mem _ (List.mem_of_mem_filter hkv)
    | scalar s => exact Or.inr (by simpa [merge_dict] using h)
    | seq vs => exact Or.inr (by simpa [merge_dict] using h)
  | scalar s => exact Or.inr (by simpa [merge_dict] using h)
  | seq vs => exact Or.inr (by simpa [merge_dict] using h)

theorem topKeys_foldl_merge (f : String → Value) (ps : List String) (acc : Value)
    (k : String) (hacc : k ∉ topKeys acc) (h : ∀ p ∈ ps, k ∉ topKeys (f p)) :
    k ∉ topKeys (ps.foldl (fun a p => merge_dict a (f p)) acc) := by
  induction ps generalizing acc with
  | nil => exact hacc
  | cons p rest ih =>
    simp only [List.foldl_cons]
    refine ih (merge_dict acc (f p)) (fun hm => ?_)
      (fun q hq => h q (List.mem_cons_of_mem _ hq))
    rcases topKeys_merge acc (f p) k hm with hm | hm
    · exact hacc hm
    · exact h p (List.mem_cons_self _ _) hm

/-- Claim C1: the merged config of `main` is a function of the config
sources alone (it agrees across arbitrary changes of the secrets
sources), the merged secrets likewise do not depend on the config
sources, and a top-level key absent from every loaded config source is
absent from the merged config — in particular a key present only in a
secrets source never appears in the merged config. -/
theorem claimC1 :
    (∀ (fs : Fs) (w : LoadWorld) (cfgArgs secA secB : List String) (cs ct : Value × Value),
        main_load_all fs w cfgArgs secA = .ok cs →
        main_load_all fs w cfgArgs secB = .ok ct → cs.1 = ct.1) ∧
    (∀ (fs : Fs) (w : LoadWorld) (cfgA cfgB secArgs : List String) (cs ct : Value × Value),
        main_load_all fs w cfgA secArgs = .ok cs →
        main_load_all fs w cfgB secArgs = .ok ct → cs.2 = ct.2) ∧
    (∀ (fs : Fs) (w : LoadWorld) (cfgArgs secArgs : List String) (cs : Value × Value)
        (k : String),
        main_load_all fs w cfgArgs secArgs = .ok cs →
        (∀ p ∈ resolvedPaths fs cfgArgs,
            k ∉ topKeys (load_yaml_or_secret_yaml w p false)) →
        k ∉ topKeys cs.1) := by
  refine ⟨?_, ?_, ?_⟩
  · intro fs w cfgArgs secA secB cs ct h1 h2
    rw [main_load_all] at h1 h2
    cases hc : main_config fs w cfgArgs with
    | error e => rw [hc] at h1; cases h1
    | ok c =>
      rw [hc] at h1 h2
      cases hsA : main_secrets fs w secA with
      | error e => rw [hsA] at h1; cases h1
      | ok sA =>
        rw [hsA] at h1
        cases hsB : main_secrets fs w secB with
        | error e => rw [hsB] at h2; cases h2
        | ok sB =>
          rw [hsB] at h2
          cases h1
          cases h2
          rfl
  · intro fs w cfgA cfgB secArgs cs ct h1 h2
    rw [main_load_all] at h1 h2
    cases hcA : main_config fs w cfgA with
    | error e => rw [hcA] at h1; cases h1
    | ok cA =>
      rw [hcA] at h1
      cases hcB : main_config fs w cfgB with
      | error e => rw [hcB] at h2; cases h2
      | ok cB =>
        rw [hcB] at h2
        cases hs : main_secrets fs w secArgs with
        | error e => rw [hs] at h1; cases h1
        | ok s =>
          rw [hs] at h1 h2
          cases h1
          cases h2
          rfl
  · intro fs w cfgArgs secArgs cs k h1 h2
    rw [main_load_all] at h1
    cases hid : iter_identify_paths fs cfgArgs with
    | error e => rw [main_config, hid] at h1; cases h1
    | ok entries =>
      rw [main_config, hid] at h1
      cases hs : main_secrets fs w secArgs with
      | error e => rw [hs] at h1; cases h1
      | ok s =>
        rw [hs] at h1
        cases h1
        refine topKeys_foldl_merge (fun p => load_yaml_or_secret_yaml w p false)
          (iter_paths fs entries) (Value.map []) k (by simp [topKeys]) ?_
        intro p hp
        refine h2 p ?_
        rw [resolvedPaths, hid]
        exact hp

/-- Witness for `claimC1`, at a filesystem where no specifier
resolves: both passes produce the empty mapping whatever the secrets
arguments, and the key `x`, absent from every loaded config source, is
absent from the merged config. -/
theorem claimC1_witness :
    ((Value.map [], Value.map []) : Value × Value).1 =
      ((Value.map [], Value.map []) : Value × Value).1 ∧
    ((Value.map [], Value.map []) : Value × Value).2 =
      ((Value.map [], Value.map []) : Value × Value).2 ∧
    "x" ∉ topKeys ((Value.map [], Value.map []) : Value × Value).1 :=
  ⟨claimC1.1 fsNone loadWorldEmpty ["a"] ["s"] ["t"]
      (Value.map [], Value.map []) (Value.map [], Value.map []) rfl rfl,
   claimC1.2.1 fsNone loadWorldEmpty ["a"] ["b"] ["s"]
      (Value.map [], Value.map []) (Value.map [], Value.map []) rfl rfl,
   claimC1.2.2 fsNone loadWorldEmpty ["a"] ["s"] (Value.map [], Value.map []) "x" rfl
      (by intro p hp; cases hp)⟩

/-! Lemmas about the `run_bot` loop. -/

theorem run_bot_loop_exit (runs : Nat → Bool) (fuel k n : Nat)
    (h : run_bot_loop runs fuel k = some n) :
    k < n ∧ runs (n - 1) = false ∧ ∀ j, k ≤ j → j < n - 1 → runs j = true := by
  induction fuel generalizing k with
  | zero => cases h
  | succ fuel ih =>
    rw [run_bot_loop] at h
    by_cases hr : runs k = true
    · rw [if_pos hr] at h
      obtain ⟨hk, hf, hall⟩ := ih (k + 1) h
      refine ⟨by omega, hf, fun j hj1 hj2 => ?_⟩
      rcases Nat.eq_or_lt_of_le hj1 with rfl | hlt
      · exact hr
      · exact hall j (by omega) hj2
    · rw [Bool.not_eq_true] at hr
      rw [hr, if_neg (by simp)] at h
      injection h with h
      subst h
      refine ⟨by omega, ?_, fun j hj1 hj2 => by omega⟩
      simpa using hr

theorem run_bot_loop_unbounded (runs : Nat → Bool) (h : ∀ k, runs k = true) :
    ∀ fuel k, run_bot_loop runs fuel k = none := by
  intro fuel
  induction fuel with
  | zero => intro _; rfl
  | succ fuel ih =>
    intro k
    rw [run_bot_loop, if_pos (h k)]
    exact ih (k + 1)

/-- Claim C5: the `run_bot` loop re-invokes the bot's blocking run
exactly while it returns true and exits exactly when it returns false
(if the loop exits after `n` calls then call `n` returned false and
all earlier calls returned true); there is no maximum restart count
(when every call returns true the loop never exits, however long it is
observed); SIGTERM and SIGINT are wired to `do_death`, SIGHUP — where
the platform supports it — to `do_restart`, and the handlers do
nothing but set the intent slot (to DIE resp. RESTART, regardless of
its previous contents). -/
theorem claimC5 :
    (∀ (runs : Nat → Bool) (fuel n : Nat), run_bot_loop runs fuel 0 = some n →
        1 ≤ n ∧ runs (n - 1) = false ∧ ∀ k, k < n - 1 → runs k = true) ∧
    (∀ runs : Nat → Bool, (∀ k, runs k = true) →
        ∀ fuel, run_bot_loop runs fuel 0 = none) ∧
    (run_bot_handlers true Sig.sigterm = some do_death ∧
      run_bot_handlers true Sig.sigint = some do_death ∧
      run_bot_handlers false Sig.sigterm = some do_death ∧
      run_bot_handlers false Sig.sigint = some do_death ∧
      run_bot_handlers true Sig.sighup = some do_restart ∧
      run_bot_handlers false Sig.sighup = none) ∧
    (∀ slot : Option Event,
        do_death slot = some Event.DIE ∧ do_restart slot = some Event.RESTART) := by
  refine ⟨?_, ?_, ⟨rfl, rfl, rfl, rfl, rfl, rfl⟩, fun slot => ⟨rfl, rfl⟩⟩
  · intro runs fuel n h
    obtain ⟨hk, hf, hall⟩ := run_bot_loop_exit runs fuel 0 n h
    exact ⟨hk, hf, fun k hk2 => hall k (Nat.zero_le k) hk2⟩
  · exact fun runs h fuel => run_bot_loop_unbounded runs h fuel 0

/-- Witness for `claimC5`: with run results true, true, false the loop
exits after exactly three calls (checking the exit characterization at
`n = 3`), and with run always returning true it is still looping after
nine observed iterations. -/
theorem claimC5_witness :
    (1 ≤ 3 ∧ (fun k => decide (k < 2)) (3 - 1) = false ∧
      ∀ k, k < 3 - 1 → (fun k => decide (k < 2)) k = true) ∧
    run_bot_loop (fun _ => true) 9 0 = none :=
  ⟨claimC5.1 (fun k => decide (k < 2)) 5 3 (by decide),
   claimC5.2.1 (fun _ => true) (fun _ => rfl) 9⟩

/-! Lemmas about the `setup_ssh` effect list. -/

theorem WritesChmodPaired_append (kh : String) (a b : List FsEffect)
    (ha : WritesChmodPaired kh a) (hb : WritesChmodPaired kh b) :
    WritesChmodPaired kh (a ++ b) := by
  induction ha with
  | nil => exact hb
  | makedirs p rest _ ih => exact WritesChmodPaired.makedirs p _ ih
  | chmod p m rest _ ih => exact WritesChmodPaired.chmod p m _ ih
  | write p c m rest hm _ ih => exact WritesChmodPaired.write p c m _ hm ih

theorem str_append_cancel_left (a s t : String) (h : a ++ s = a ++ t) : s = t := by
  have hd := congrArg String.data h
  simp only [String.data_append] at hd
  have hst := List.append_cancel_left hd
  cases s with
  | mk sd =>
    cases t with
    | mk td => exact congrArg String.mk hst

theorem os_path_join_inj (ca s t : String)
    (hs : pyStartsWith s "/" = false) (ht : pyStartsWith t "/" = false)
    (h : os_path_join ca s = os_path_join ca t) : s = t := by
  rw [os_path_join, os_path_join, hs, ht] at h
  simp only [Bool.false_eq_true, if_false] at h
  by_cases hca : (ca == "") = true
  · rw [if_pos hca, if_pos hca] at h
    exact h
  · rw [if_neg hca, if_neg hca] at h
    by_cases hsl : pyEndsWith ca "/" = true
    · rw [if_pos hsl, if_pos hsl] at h
      exact str_append_cancel_left ca s t h
    · rw [if_neg hsl, if_neg hsl] at h
      exact str_append_cancel_left (ca ++ "/") s t h

theorem os_path_join_ne_kh (ca s : String) (hs : pyStartsWith s "/" = false)
    (hne : s ≠ "known_hosts") :
    os_path_join ca s ≠ os_path_join ca "known_hosts" :=
  fun h => hne (os_path_join_inj ca s "known_hosts" hs (by decide) h)

theorem write_mode_block_paired (kh p : String) (c : Option String) (hne : p ≠ kh) :
    WritesChmodPaired kh (write_mode_block p c 0o600) := by
  rw [write_mode_block]
  by_cases h : truthyS c = true
  · rw [if_pos h]
    exact WritesChmodPaired.write p (c.getD "") 0o600 [] (Or.inr ⟨hne, rfl⟩)
      WritesChmodPaired.nil
  · rw [if_neg h]
    exact WritesChmodPaired.nil

theorem writePaths_append (a b : List FsEffect) :
    writePaths (a ++ b) = writePaths a ++ writePaths b := by
  induction a with
  | nil => rfl
  | cons e rest ih => cases e <;> simp [writePaths, ih]

theorem writePaths_write_mode_block (p : String) (c : Option String) (m : Nat) :
    writePaths (write_mode_block p c m) = if truthyS c = true then [p] else [] := by
  rw [write_mode_block]
  by_cases h : truthyS c = true <;> simp [h, writePaths]

theorem mem_if_singleton {p x : String} {b : Prop} [Decidable b]
    (h : p ∈ (if b then [x] else [])) : p = x := by
  by_cases hb : b
  · rw [if_pos hb] at h
    simpa using h
  · rw [if_neg hb] at h
    cases h

theorem setup_ssh_files_paired (fs : Fs) (cfg : SshConfig) (ca : String) :
    WritesChmodPaired (os_path_join ca "known_hosts") (setup_ssh_files fs cfg ca) := by
  rw [setup_ssh_files]
  refine WritesChmodPaired_append _ _ _
    (WritesChmodPaired_append _ _ _ (WritesChmodPaired_append _ _ _ ?_ ?_) ?_) ?_
  · by_cases h : fs.pathExists ca = true
    · rw [if_pos h]
      exact WritesChmodPaired.nil
    · rw [if_neg h]
      exact WritesChmodPaired.makedirs ca [] WritesChmodPaired.nil
  · exact write_mode_block_paired _ _ _ (os_path_join_ne_kh ca "config" (by decide) (by decide))
  · exact write_mode_block_paired _ _ _ (os_path_join_ne_kh ca "id_rsa" (by decide) (by decide))
  · exact write_mode_block_paired _ _ _
      (os_path_join_ne_kh ca "id_rsa.pub" (by decide) (by decide))

theorem setup_ssh_files_writePaths (fs : Fs) (cfg : SshConfig) (ca : String) :
    ∀ p ∈ writePaths (setup_ssh_files fs cfg ca),
      p = os_path_join ca "config" ∨ p = os_path_join ca "id_rsa" ∨
      p = os_path_join ca "id_rsa.pub" := by
  intro p hp
  rw [setup_ssh_files, writePaths_append, writePaths_append, writePaths_append,
    writePaths_write_mode_block, writePaths_write_mode_block,
    writePaths_write_mode_block] at hp
  have hmk : writePaths (if fs.pathExists ca then [] else [FsEffect.makedirs ca]) = [] := by
    by_cases h : fs.pathExists ca = true <;> simp [h, writePaths]
  rw [hmk] at hp
  rcases List.mem_append.1 hp with hp | hp
  · rcases List.mem_append.1 hp with hp | hp
    · rcases List.mem_append.1 hp with hp | hp
      · cases hp
      · exact Or.inl (mem_if_singleton hp)
    · exact Or.inr (Or.inl (mem_if_singleton hp))
  · exact Or.inr (Or.inr (mem_if_singleton hp))

/-- Claim C8: in every run of `setup_ssh`, every file write is
immediately followed by a chmod of the same path — mode 0644 for the
`known_hosts` file and 0600 for any other written file — and the only
paths ever written are the SSH client config, the private key, the
public key and `known_hosts`, all inside the configured directory. -/
theorem claimC8 (fs : Fs) (w : SshWorld) (cfg : SshConfig) :
    WritesChmodPaired (os_path_join (cfg.create_at.getD "") "known_hosts")
      (setup_ssh fs w cfg).1 ∧
    ∀ p ∈ writePaths (setup_ssh fs w cfg).1,
      p = os_path_join (cfg.create_at.getD "") "config" ∨
      p = os_path_join (cfg.create_at.getD "") "id_rsa" ∨
      p = os_path_join (cfg.create_at.getD "") "id_rsa.pub" ∨
      p = os_path_join (cfg.create_at.getD "") "known_hosts" := by
  have hfiles : ∀ p ∈ writePaths (setup_ssh_files fs cfg (cfg.create_at.getD "")),
      p = os_path_join (cfg.create_at.getD "") "config" ∨
      p = os_path_join (cfg.create_at.getD "") "id_rsa" ∨
      p = os_path_join (cfg.create_at.getD "") "id_rsa.pub" ∨
      p = os_path_join (cfg.create_at.getD "") "known_hosts" := by
    intro p hp
    rcases setup_ssh_files_writePaths fs cfg (cfg.create_at.getD "") p hp with h | h | h
    · exact Or.inl h
    · exact Or.inr (Or.inl h)
    · exact Or.inr (Or.inr (Or.inl h))
  rw [setup_ssh]
  split
  · exact ⟨WritesChmodPaired.nil, fun p hp => absurd hp (List.not_mem_nil p)⟩
  · split
    · exact ⟨WritesChmodPaired.nil, fun p hp => absurd hp (List.not_mem_nil p)⟩
    · split
      · exact ⟨setup_ssh_files_paired fs cfg _, hfiles⟩
      · split
        · exact ⟨setup_ssh_files_paired fs cfg _, hfiles⟩
        · split
          · exact ⟨setup_ssh_files_paired fs cfg _, hfiles⟩
          · refine ⟨WritesChmodPaired_append _ _ _ (setup_ssh_files_paired fs cfg _)
              (WritesChmodPaired.write _ _ 0o644 [] (Or.inl ⟨rfl, rfl⟩)
                WritesChmodPaired.nil), ?_⟩
            intro p hp
            rw [writePaths_append] at hp
            rcases List.mem_append.1 hp with hp | hp
            · exact hfiles p hp
            · have hp2 : p ∈ [os_path_join (cfg.create_at.getD "") "known_hosts"] := hp
              rcases List.mem_singleton.1 hp2 with rfl
              exact Or.inr (Or.inr (Or.inr rfl))

/-- Witness for `claimC8`: the client-config path written by the full
fixture run is among the four provisioned paths. -/
theorem claimC8_witness :
    "/sshdir/config" = os_path_join (cfgFull.create_at.getD "") "config" ∨
    "/sshdir/config" = os_path_join (cfgFull.create_at.getD "") "id_rsa" ∨
    "/sshdir/config" = os_path_join (cfgFull.create_at.getD "") "id_rsa.pub" ∨
    "/sshdir/config" = os_path_join (cfgFull.create_at.getD "") "known_hosts" :=
  (claimC8 fsNone sshWorldEmpty cfgFull).2 "/sshdir/config" (by decide)

/-- Claim C3, refuted (code bug): with one configured known-hosts host
(`example.com`), a creatable target directory, and no fetcher plugin,
`setup_ssh` raises `TypeError` at the `urllib.parse("https://...")`
call (bot.py line 131 calls the module `six.moves.urllib.parse`
itself; its own comment says `Use urlparse`) before any keyscan line
can be collected, so the claimed collection of lines from configured
hosts never happens and no `known_hosts` file is written. -/
theorem claimC3_bug :
    (setup_ssh fsNone sshWorldEmpty cfgHostBug).2 =
      some "TypeError: module object is not callable" ∧
    (setup_ssh fsNone sshWorldEmpty cfgHostBug).1 = [FsEffect.makedirs "/sshdir"] := by
  decide

end Padre
